import Mathlib

/-!
# docs-hub: the document cache and its refresh engine

A shallow embedding of `internal/service/doc_service.go` (with the record types of
`internal/config/config.go`).  The Go map `docs map[string]*ServiceDoc` is an association
list with at most one binding per key; the network and the clock, which the Go code reaches
through `ds.client` and `time.Now()`, are an explicit environment `Env` handed to every
refresh attempt.  Go errors are values of the type `Error`, one constructor per
`fmt.Errorf` site of the source plus one for errors produced by the standard library.
The handler `GetServiceInfo` of `internal/handler/handler.go` appears in the interleaving
model, where it runs against a concurrent `RefreshService`.
-/

namespace DocsHub

/-! ## Data model -/

/-- Go `error` values that occur in `doc_service.go`. -/
inductive Error where
  /-- `fmt.Errorf("service %s not found", name)` -/
  | serviceNotFound (name : String)
  /-- `fmt.Errorf("service config %s not found", name)` -/
  | serviceConfigNotFound (name : String)
  /-- `fmt.Errorf("swagger doc not available for %s", name)` -/
  | docNotAvailable (name : String)
  /-- `fmt.Errorf("failed to fetch doc: status %d", resp.StatusCode)` -/
  | fetchStatus (code : Nat)
  /-- an error returned by `net/http`, `io` or `encoding/json` -/
  | external (msg : String)
  deriving DecidableEq, Repr

/-- A decoded JSON value (`interface{}` as produced by `encoding/json`). -/
inductive JsonValue where
  | null
  | bool (b : Bool)
  | number (literal : String)
  | string (s : String)
  | array (items : List JsonValue)
  | object (fields : List (String × JsonValue))

/-- Go `map[string]interface{}`; the nil map is `none` of `Option JsonObject`. -/
abbrev JsonObject := List (String × JsonValue)

/-- Go `time.Time` as an instant number; `0` is the zero value. -/
abbrev Time := Nat

/-- `config.ServiceConfig` -/
structure ServiceConfig where
  Name : String
  DisplayName : String
  BaseURL : String
  DocPath : String
  HealthCheck : String
  Status : String
  Owner : String
  Description : String
  Tags : List String
  deriving DecidableEq, Repr

/-- `config.Config` -/
structure Config where
  Environment : String
  Tenant : String
  Region : String
  RefreshInterval : String
  Port : String
  Services : List ServiceConfig
  deriving DecidableEq, Repr

/-- `service.ServiceDoc` -/
structure ServiceDoc where
  Name : String
  DisplayName : String
  Description : String
  Status : String
  Owner : String
  Tags : List String
  BaseURL : String
  DocURL : String
  Healthy : Bool
  LastUpdated : Time
  SwaggerDoc : Option JsonObject

/-- `service.DocService`: the configuration and the cache.  The HTTP client is not state of
the embedding, its answers are part of `Env`.  The mutex is not state of the operations
below, which run one at a time; it is state of `World`, where a refresh and a read are
interleaved step by step. -/
structure DocService where
  config : Config
  docs : List (String × ServiceDoc)

/-! ## The environment of one refresh attempt -/

/-- What `io.ReadAll(resp.Body)` returns. -/
inductive BodyRead where
  | readError (err : Error)
  | bytes (data : String)

/-- What `ds.client.Get(url)` returns. -/
inductive HttpResult where
  | failed (err : Error)
  | response (statusCode : Nat) (body : BodyRead)

/-- Everything outside the process that one call of `RefreshService` observes: the answer to
its first `client.Get` (the health check) and to its second (the document fetch), each as a
function of the URL requested, the result of `json.Unmarshal(body, &doc)` on a nil map
(`.ok none` when the decoded map stays nil), and the value of `time.Now()`. -/
structure Env where
  healthGet : String → HttpResult
  docGet : String → HttpResult
  unmarshal : String → Except Error (Option JsonObject)
  now : Time

/-! ## Map primitives -/

/-- Go `v, exists := m[k]`. -/
def mapLookup : List (String × ServiceDoc) → String → Option ServiceDoc
  | [], _ => none
  | (k, v) :: rest, name => if k = name then some v else mapLookup rest name

/-- Go `m[k] = v`: replaces the binding of `k`, or adds one. -/
def mapStore : List (String × ServiceDoc) → String → ServiceDoc → List (String × ServiceDoc)
  | [], name, d => [(name, d)]
  | (k, v) :: rest, name, d =>
    if k = name then (k, d) :: rest else (k, v) :: mapStore rest name d

/-- A write through the pointer stored under `k`: the pointed-to record becomes `d`, the map
itself (its keys and its other records) is not touched. -/
def mapWrite : List (String × ServiceDoc) → String → ServiceDoc → List (String × ServiceDoc)
  | [], _, _ => []
  | (k, v) :: rest, name, d =>
    if k = name then (k, d) :: rest else (k, v) :: mapWrite rest name d

/-- The keys of the cache, in storage order. -/
def cacheKeys (ds : DocService) : List String := ds.docs.map Prod.fst

/-- The names of the configured services, in configuration order. -/
def registryNames (cfg : Config) : List String := cfg.Services.map ServiceConfig.Name

/-! ## Operations of `doc_service.go` -/

/-- The record built for one service by the loop of `NewDocService` (lines 50-60). -/
def newServiceDoc (svc : ServiceConfig) : ServiceDoc :=
  { Name := svc.Name
    DisplayName := svc.DisplayName
    Description := svc.Description
    Status := svc.Status
    Owner := svc.Owner
    Tags := svc.Tags
    BaseURL := svc.BaseURL
    DocURL := svc.BaseURL ++ svc.DocPath
    Healthy := false
    LastUpdated := 0
    SwaggerDoc := none }

/-- `NewDocService` up to and including its initialisation loop (lines 40-61), that is the
service before the initial `RefreshAll`. -/
def buildDocs (cfg : Config) : DocService :=
  cfg.Services.foldl
    (fun ds svc => { ds with docs := mapStore ds.docs svc.Name (newServiceDoc svc) })
    { config := cfg, docs := [] }

/-- The loop of `RefreshService` (lines 104-110): the first configured service of that name. -/
def findConfig : List ServiceConfig → String → Option ServiceConfig
  | [], _ => none
  | svc :: rest, name => if svc.Name = name then some svc else findConfig rest name

/-- `checkHealth` -/
def checkHealth (env : Env) (url : String) : Bool :=
  match env.healthGet url with
  | .failed _ => false
  | .response statusCode _ => statusCode == 200

/-- `fetchSwaggerDoc`: the pair `(doc, err)` the Go function returns. -/
def fetchSwaggerDoc (env : Env) (url : String) : Option JsonObject × Option Error :=
  match env.docGet url with
  | .failed err => (none, some err)
  | .response statusCode body =>
    if statusCode ≠ 200 then (none, some (.fetchStatus statusCode))
    else
      match body with
      | .readError err => (none, some err)
      | .bytes data =>
        match env.unmarshal data with
        | .error err => (none, some err)
        | .ok doc => (doc, none)

/-- `RefreshService`: the new service state and the returned error. -/
def RefreshService (ds : DocService) (name : String) (env : Env) :
    DocService × Option Error :=
  match mapLookup ds.docs name with
  | none => (ds, some (.serviceNotFound name))
  | some doc =>
    match findConfig ds.config.Services name with
    | none => (ds, some (.serviceConfigNotFound name))
    | some svcConfig =>
      let healthy := checkHealth env (svcConfig.BaseURL ++ svcConfig.HealthCheck)
      let fetched := fetchSwaggerDoc env (svcConfig.BaseURL ++ svcConfig.DocPath)
      let doc1 := { doc with Healthy := healthy, LastUpdated := env.now }
      let doc2 :=
        if fetched.2.isNone && fetched.1.isSome then { doc1 with SwaggerDoc := fetched.1 }
        else doc1
      ({ ds with docs := mapWrite ds.docs name doc2 }, fetched.2)

/-- The order in which the `n` tasks of one cycle take the lock for writing, chosen by
`sched`: the tasks that `sched` names, in the order of their last mention there, then the
tasks it does not name, in configuration order.  Whatever `sched` is, every task below `n`
occurs exactly once, and every order of the `n` tasks is the value at some `sched`. -/
def writeOrder (n : Nat) (sched : List Nat) : List Nat :=
  (sched.filter (fun i => decide (i < n))).dedup ++
    (List.range n).filter (fun i => decide (i ∉ sched))

/-- `RefreshAll`: one task per configured service, task `i` refreshing the name of the
`i`-th service in the environment `envs i`.  A task reads the cache only to find its own
record and writes only while holding the lock, so a concurrent run is the sequential run of
the tasks in the order in which they take the lock for writing.  `wg.Wait()` returns once
every task has called `wg.Done()`, so every task runs before `RefreshAll` returns: the
order is `writeOrder` of the number of services, and `sched` only chooses among the
orders. -/
def RefreshAll (ds : DocService) (envs : Nat → Env) (sched : List Nat) : DocService × Unit :=
  ((writeOrder ds.config.Services.length sched).foldl
    (fun s i =>
      match ds.config.Services.get? i with
      | none => s
      | some svc => (RefreshService s svc.Name (envs i)).1)
    ds, ())

/-- `NewDocService`: build the records, then run the initial `RefreshAll`. -/
def NewDocService (cfg : Config) (envs : Nat → Env) (sched : List Nat) : DocService :=
  (RefreshAll (buildDocs cfg) envs sched).1

/-- `GetCatalog`: the summaries in the order the map is ranged over, and the service. -/
def GetCatalog (ds : DocService) : List ServiceDoc × DocService :=
  (ds.docs.foldl
    (fun catalog entry =>
      catalog ++
        [{ Name := entry.2.Name
           DisplayName := entry.2.DisplayName
           Description := entry.2.Description
           Status := entry.2.Status
           Owner := entry.2.Owner
           Tags := entry.2.Tags
           BaseURL := entry.2.BaseURL
           DocURL := entry.2.DocURL
           Healthy := entry.2.Healthy
           LastUpdated := entry.2.LastUpdated
           SwaggerDoc := none }])
    [], ds)

/-- `GetServiceDoc` -/
def GetServiceDoc (ds : DocService) (name : String) :
    (Option ServiceDoc × Option Error) × DocService :=
  match mapLookup ds.docs name with
  | none => ((none, some (.serviceNotFound name)), ds)
  | some doc => ((some doc, none), ds)

/-- `GetSwaggerJSON` -/
def GetSwaggerJSON (ds : DocService) (name : String) :
    (Option JsonObject × Option Error) × DocService :=
  match mapLookup ds.docs name with
  | none => ((none, some (.serviceNotFound name)), ds)
  | some doc =>
    match doc.SwaggerDoc with
    | none => ((none, some (.docNotAvailable name)), ds)
    | some swagger => ((some swagger, none), ds)

/-- A run of single refresh attempts, each the name refreshed and what that attempt
observes, applied one after the other. -/
def runRefreshes (ds : DocService) (attempts : List (String × Env)) : DocService :=
  attempts.foldl (fun s a => (RefreshService s a.1 a.2).1) ds

/-! ## Sample data: the scenarios of the specification -/

/-- The service `orders` of the scenarios. -/
def ordersConfig : ServiceConfig :=
  { Name := "orders", DisplayName := "Orders", BaseURL := "http://orders",
    DocPath := "/swagger.json", HealthCheck := "/health", Status := "active",
    Owner := "team-a", Description := "order management", Tags := ["core"] }

/-- A second service. -/
def usersConfig : ServiceConfig :=
  { Name := "users", DisplayName := "Users", BaseURL := "http://users",
    DocPath := "/v2/api-docs", HealthCheck := "/ping", Status := "beta",
    Owner := "team-b", Description := "accounts", Tags := [] }

/-- A registry of two services. -/
def sampleConfig : Config :=
  { Environment := "dev", Tenant := "t", Region := "r", RefreshInterval := "5m",
    Port := "9000", Services := [ordersConfig, usersConfig] }

/-- The decoded form of the body `{"openapi":"3.0.0"}`. -/
def openapiDoc : JsonObject := [("openapi", .string "3.0.0")]

/-- The decoded form of the body `{"swagger":"2.0"}`. -/
def swaggerDoc2 : JsonObject := [("swagger", .string "2.0")]

/-- The behaviour of `json.Unmarshal` into a nil `map[string]interface{}` on the bodies used
below: an object becomes a map, the JSON value `null` leaves the map nil without an error,
anything else is an error. -/
def sampleUnmarshal (data : String) : Except Error (Option JsonObject) :=
  if data = "\x7b\"openapi\":\"3.0.0\"\x7d" then .ok (some openapiDoc)
  else if data = "\x7b\"swagger\":\"2.0\"\x7d" then .ok (some swaggerDoc2)
  else if data = "null" then .ok none
  else .error (.external "invalid character")

/-- Every request answered with the given status and body at time `t`. -/
def envOf (healthStatus docStatus : Nat) (body : String) (t : Time) : Env :=
  { healthGet := fun _ => .response healthStatus (.bytes "ok")
    docGet := fun _ => .response docStatus (.bytes body)
    unmarshal := sampleUnmarshal
    now := t }

/-- Backend up, document `{"openapi":"3.0.0"}`. -/
def envUp (t : Time) : Env := envOf 200 200 "\x7b\"openapi\":\"3.0.0\"\x7d" t

/-- Backend up, document endpoint answering 500. -/
def envDoc500 (t : Time) : Env := envOf 200 500 "boom" t

/-- Health check answering 503, document endpoint fine. -/
def envUnhealthy (t : Time) : Env := envOf 503 200 "\x7b\"swagger\":\"2.0\"\x7d" t

/-- Backend up, document endpoint answering 200 with the body `null`. -/
def envNull (t : Time) : Env := envOf 200 200 "null" t

/-- Backend unreachable. -/
def envDown (t : Time) : Env :=
  { healthGet := fun _ => .failed (.external "connection refused")
    docGet := fun _ => .failed (.external "connection refused")
    unmarshal := sampleUnmarshal
    now := t }

/-- The sample service after one successful refresh of `orders` at time 1. -/
def ordersCached : DocService := (RefreshService (buildDocs sampleConfig) "orders" (envUp 1)).1

/-! ## Auxiliary notions used in the statements -/

/-- The record `RefreshService` leaves under `name` (lines 125-129) when the record found
there was `doc` and the configuration found was `svc`. -/
def refreshedDoc (doc : ServiceDoc) (svc : ServiceConfig) (env : Env) : ServiceDoc :=
  if (fetchSwaggerDoc env (svc.BaseURL ++ svc.DocPath)).2.isNone
      && (fetchSwaggerDoc env (svc.BaseURL ++ svc.DocPath)).1.isSome then
    { doc with
      Healthy := checkHealth env (svc.BaseURL ++ svc.HealthCheck)
      LastUpdated := env.now
      SwaggerDoc := (fetchSwaggerDoc env (svc.BaseURL ++ svc.DocPath)).1 }
  else
    { doc with
      Healthy := checkHealth env (svc.BaseURL ++ svc.HealthCheck)
      LastUpdated := env.now }

/-- Two records agree on the fields copied from the descriptor. -/
def sameIdentity (a b : ServiceDoc) : Prop :=
  a.Name = b.Name ∧ a.DisplayName = b.DisplayName ∧ a.Description = b.Description ∧
  a.Status = b.Status ∧ a.Owner = b.Owner ∧ a.Tags = b.Tags ∧ a.BaseURL = b.BaseURL ∧
  a.DocURL = b.DocURL

/-- The refresh attempts made by the tasks `order` of one `RefreshAll` cycle, in that
order. -/
def cycleTasks (cfg : Config) (envs : Nat → Env) (order : List Nat) : List (String × Env) :=
  order.filterMap (fun i => (cfg.Services.get? i).map (fun svc => (svc.Name, envs i)))

/-- The operations a caller can invoke on a constructed service. -/
inductive Op where
  | refreshService (name : String) (env : Env)
  | refreshAll (envs : Nat → Env) (sched : List Nat)
  | getCatalog
  | getServiceDoc (name : String)
  | getSwaggerJSON (name : String)

/-- The service after an operation. -/
def Op.apply (ds : DocService) : Op → DocService
  | .refreshService name env => (RefreshService ds name env).1
  | .refreshAll envs sched => (RefreshAll ds envs sched).1
  | .getCatalog => (GetCatalog ds).2
  | .getServiceDoc name => (GetServiceDoc ds name).2
  | .getSwaggerJSON name => (GetSwaggerJSON ds name).2

/-- An attempt refreshes `name` and its document fetch returns no error and a document that
is not nil: the condition under which line 129 stores the document. -/
def fetchStored (cfg : Config) (name : String) (a : String × Env) : Bool :=
  a.1 == name &&
    match findConfig cfg.Services name with
    | none => false
    | some svc =>
      (fetchSwaggerDoc a.2 (svc.BaseURL ++ svc.DocPath)).2.isNone
        && (fetchSwaggerDoc a.2 (svc.BaseURL ++ svc.DocPath)).1.isSome

/-- Outcomes of one cycle: the document endpoint of `orders` (task 0) answers 200 with the
body `null`, every other backend is unreachable. -/
def cycleNull (i : Nat) : Env := if i = 0 then envNull 2 else envDown 2

/-- A second descriptor under the name `orders`. -/
def ordersMirror : ServiceConfig :=
  { Name := "orders", DisplayName := "Orders (mirror)", BaseURL := "http://orders-b",
    DocPath := "/swagger.json", HealthCheck := "/health", Status := "active",
    Owner := "team-a", Description := "order management", Tags := ["core"] }

/-- A registry in which two services carry the name `orders`. -/
def repeatedConfig : Config :=
  { Environment := "dev", Tenant := "t", Region := "r", RefreshInterval := "5m",
    Port := "9000", Services := [ordersConfig, ordersMirror] }

/-- Outcomes of one cycle: task 0 finds its backend up with a document at time 2, every
other task finds its backend unreachable at time 3. -/
def cycleFirstUp (i : Nat) : Env := if i = 0 then envUp 2 else envDown 3

/-- Outcomes of one cycle: task 0 finds its backend unreachable at time 2, every other task
finds its backend unreachable at time 3. -/
def cycleFirstDown (i : Nat) : Env := if i = 0 then envDown 2 else envDown 3

/-- Outcomes of one cycle: the document endpoint of `orders` (task 0) answers 500, every
other backend fails its health check and serves a document. -/
def cycleMixed (i : Nat) : Env := if i = 0 then envDoc500 3 else envUnhealthy 3

/-! ## A refresh running concurrently with a read

`RefreshService` and the handler `GetServiceInfo` of `internal/handler/handler.go` as two
threads over the shared service, one step per access to shared state, interleaved by a
schedule.  `GetServiceDoc` returns the pointer stored in the map, so the handler reads the
fields of the shared record when `c.JSON` encodes it, after `GetServiceDoc` has released the
read lock. -/

/-- `sync.RWMutex`: whether a writer holds the lock, and how many readers hold it. -/
structure RWMutex where
  writer : Bool
  readers : Nat
  deriving DecidableEq, Repr

/-- The program points of `RefreshService`. -/
inductive RefreshPc where
  /-- before `ds.mu.Lock()`, line 95 -/
  | lockLookup
  /-- before `doc, exists := ds.docs[name]`, line 96 -/
  | lookup
  /-- before `ds.mu.Unlock()` and the test of `exists`, lines 97-101 -/
  | unlockLookup
  /-- before the search of the configuration and the two requests, lines 103-120 -/
  | fetch
  /-- before `ds.mu.Lock()`, line 122 -/
  | lockWrite
  /-- before `doc.Healthy = healthy`, line 125 -/
  | setHealthy
  /-- before `doc.LastUpdated = time.Now()`, line 126 -/
  | setLastUpdated
  /-- before the conditional assignment of `doc.SwaggerDoc`, lines 128-133 -/
  | setSwaggerDoc
  /-- before the deferred `ds.mu.Unlock()` and the return, line 135 -/
  | unlockWrite
  /-- returned -/
  | done
  deriving DecidableEq, Repr

/-- The program points of the handler `GetServiceInfo`. -/
inductive ReadPc where
  /-- before `ds.mu.RLock()`, line 201 of `GetServiceDoc` -/
  | rlock
  /-- before `doc, exists := ds.docs[name]`, line 204 -/
  | lookup
  /-- before the deferred `ds.mu.RUnlock()` and the return of `GetServiceDoc` -/
  | runlock
  /-- before `c.JSON` reads the field `Healthy` of the record returned -/
  | readHealthy
  /-- before `c.JSON` reads the field `LastUpdated` -/
  | readLastUpdated
  /-- before `c.JSON` reads the field `SwaggerDoc` -/
  | readSwaggerDoc
  /-- response written -/
  | done
  deriving DecidableEq, Repr

/-- The local variables of a running `RefreshService`. -/
structure RefreshLocals where
  found : Bool
  healthy : Bool
  swaggerDoc : Option JsonObject
  err : Option Error

/-- The two threads. -/
inductive Thread where
  | refreshService
  | getServiceInfo
  deriving DecidableEq, Repr

/-- The shared service with its lock, and the state of the two threads: for the refresh its
program point, locals and returned error; for the handler its program point, whether
`GetServiceDoc` found a record, and the values of the three mutable fields it has read. -/
structure World where
  mu : RWMutex
  ds : DocService
  refreshPc : RefreshPc
  locals : RefreshLocals
  returned : Option (Option Error)
  readPc : ReadPc
  readFound : Bool
  seenHealthy : Option Bool
  seenLastUpdated : Option Time
  seenSwaggerDoc : Option (Option JsonObject)

/-- Both threads about to start on the service `ds`, the lock free. -/
def World.start (ds : DocService) : World :=
  { mu := { writer := false, readers := 0 }
    ds := ds
    refreshPc := .lockLookup
    locals := { found := false, healthy := false, swaggerDoc := none, err := none }
    returned := none
    readPc := .rlock
    readFound := false
    seenHealthy := none
    seenLastUpdated := none
    seenSwaggerDoc := none }

/-- An assignment to fields of the record the pointer stored under `name` points to. -/
def assignRecord (docs : List (String × ServiceDoc)) (name : String)
    (f : ServiceDoc → ServiceDoc) : List (String × ServiceDoc) :=
  match mapLookup docs name with
  | none => docs
  | some d => mapWrite docs name (f d)

/-- One step of `RefreshService name`; `none` when the thread is blocked on the lock or has
returned. -/
def stepRefreshService (name : String) (env : Env) (w : World) : Option World :=
  match w.refreshPc with
  | .lockLookup =>
    if w.mu.writer || w.mu.readers != 0 then none
    else some { w with mu := { w.mu with writer := true }, refreshPc := .lookup }
  | .lookup =>
    some { w with
      locals := { w.locals with found := (mapLookup w.ds.docs name).isSome }
      refreshPc := .unlockLookup }
  | .unlockLookup =>
    if w.locals.found then
      some { w with mu := { w.mu with writer := false }, refreshPc := .fetch }
    else
      some { w with
        mu := { w.mu with writer := false }
        refreshPc := .done
        returned := some (some (.serviceNotFound name)) }
  | .fetch =>
    match findConfig w.ds.config.Services name with
    | none =>
      some { w with refreshPc := .done, returned := some (some (.serviceConfigNotFound name)) }
    | some svcConfig =>
      let healthy := checkHealth env (svcConfig.BaseURL ++ svcConfig.HealthCheck)
      let fetched := fetchSwaggerDoc env (svcConfig.BaseURL ++ svcConfig.DocPath)
      some { w with
        locals := { w.locals with healthy := healthy, swaggerDoc := fetched.1, err := fetched.2 }
        refreshPc := .lockWrite }
  | .lockWrite =>
    if w.mu.writer || w.mu.readers != 0 then none
    else some { w with mu := { w.mu with writer := true }, refreshPc := .setHealthy }
  | .setHealthy =>
    some { w with
      ds := { w.ds with
        docs := assignRecord w.ds.docs name (fun d => { d with Healthy := w.locals.healthy }) }
      refreshPc := .setLastUpdated }
  | .setLastUpdated =>
    some { w with
      ds := { w.ds with
        docs := assignRecord w.ds.docs name (fun d => { d with LastUpdated := env.now }) }
      refreshPc := .setSwaggerDoc }
  | .setSwaggerDoc =>
    if w.locals.err.isNone && w.locals.swaggerDoc.isSome then
      some { w with
        ds := { w.ds with
          docs := assignRecord w.ds.docs name
            (fun d => { d with SwaggerDoc := w.locals.swaggerDoc }) }
        refreshPc := .unlockWrite }
    else some { w with refreshPc := .unlockWrite }
  | .unlockWrite =>
    some { w with
      mu := { w.mu with writer := false }
      refreshPc := .done
      returned := some w.locals.err }
  | .done => none

/-- One step of the handler `GetServiceInfo` for the service `name`: the call of
`GetServiceDoc` (lines 201-209), then the reads of the record it returned, made by `c.JSON`
with no lock held; `none` when the thread is blocked on the lock or has finished. -/
def stepGetServiceInfo (name : String) (w : World) : Option World :=
  match w.readPc with
  | .rlock =>
    if w.mu.writer then none
    else some { w with mu := { w.mu with readers := w.mu.readers + 1 }, readPc := .lookup }
  | .lookup =>
    some { w with readFound := (mapLookup w.ds.docs name).isSome, readPc := .runlock }
  | .runlock =>
    some { w with
      mu := { w.mu with readers := w.mu.readers - 1 }
      readPc := if w.readFound then .readHealthy else .done }
  | .readHealthy =>
    some { w with
      seenHealthy := (mapLookup w.ds.docs name).map ServiceDoc.Healthy
      readPc := .readLastUpdated }
  | .readLastUpdated =>
    some { w with
      seenLastUpdated := (mapLookup w.ds.docs name).map ServiceDoc.LastUpdated
      readPc := .readSwaggerDoc }
  | .readSwaggerDoc =>
    some { w with
      seenSwaggerDoc := (mapLookup w.ds.docs name).map ServiceDoc.SwaggerDoc
      readPc := .done }
  | .done => none

/-- One step of the chosen thread. -/
def stepThread (name : String) (env : Env) (w : World) : Thread → Option World
  | .refreshService => stepRefreshService name env w
  | .getServiceInfo => stepGetServiceInfo name w

/-- The threads stepped in the order of the schedule; `none` if the schedule picks a thread
that cannot step. -/
def runSchedule (name : String) (env : Env) : List Thread → World → Option World
  | [], w => some w
  | t :: rest, w =>
    match stepThread name env w t with
    | none => none
    | some w' => runSchedule name env rest w'

/-- The schedule in which the handler obtains the record and reads `Healthy`, the refresh
then takes the lock, writes its outcome and releases the lock, and the handler reads the
remaining fields. -/
def racingSchedule : List Thread :=
  [.refreshService, .refreshService, .refreshService, .refreshService,
   .getServiceInfo, .getServiceInfo, .getServiceInfo, .getServiceInfo,
   .refreshService, .refreshService, .refreshService, .refreshService, .refreshService,
   .getServiceInfo, .getServiceInfo]

/-! ## Lemmas on the map primitives -/

theorem mapLookup_eq_none_iff (m : List (String × ServiceDoc)) (name : String) :
    mapLookup m name = none ↔ name ∉ m.map Prod.fst := by
  induction m with
  | nil => simp [mapLookup]
  | cons e rest ih =>
    obtain ⟨k, v⟩ := e
    by_cases hk : k = name
    · simp [mapLookup, hk]
    · have hk2 : ¬ name = k := fun h => hk h.symm
      simp [mapLookup, hk, hk2, ih]

theorem mapLookup_isSome_iff (m : List (String × ServiceDoc)) (name : String) :
    (∃ d, mapLookup m name = some d) ↔ name ∈ m.map Prod.fst := by
  rw [← not_iff_not, ← mapLookup_eq_none_iff]
  cases mapLookup m name <;> simp

theorem keys_mapWrite (m : List (String × ServiceDoc)) (name : String) (d : ServiceDoc) :
    (mapWrite m name d).map Prod.fst = m.map Prod.fst := by
  induction m with
  | nil => rfl
  | cons e rest ih =>
    obtain ⟨k, v⟩ := e
    by_cases hk : k = name <;> simp [mapWrite, hk, ih]

theorem mapLookup_mapWrite_self (m : List (String × ServiceDoc)) (name : String)
    (d v : ServiceDoc) (h : mapLookup m name = some v) :
    mapLookup (mapWrite m name d) name = some d := by
  induction m with
  | nil => simp [mapLookup] at h
  | cons e rest ih =>
    obtain ⟨k, w⟩ := e
    by_cases hk : k = name
    · simp [mapWrite, mapLookup, hk]
    · simp only [mapLookup, hk, if_false] at h
      simp [mapWrite, mapLookup, hk, ih h]

theorem mapLookup_mapWrite_ne (m : List (String × ServiceDoc)) (name k : String)
    (d : ServiceDoc) (h : k ≠ name) :
    mapLookup (mapWrite m name d) k = mapLookup m k := by
  induction m with
  | nil => rfl
  | cons e rest ih =>
    obtain ⟨k0, w⟩ := e
    by_cases hk : k0 = name
    · subst hk
      have hk0 : ¬ k0 = k := fun h0 => h h0.symm
      simp only [mapWrite, mapLookup, hk0, if_true, if_false]
    · by_cases hk1 : k0 = k
      · subst hk1
        simp only [mapWrite, hk, if_false, mapLookup, if_true]
      · simp only [mapWrite, hk, if_false, mapLookup, hk1, ih]

theorem mapWrite_forall₂ (m : List (String × ServiceDoc)) (name : String) (d : ServiceDoc)
    (R : String × ServiceDoc → String × ServiceDoc → Prop)
    (hsame : ∀ e, R e e) (hnew : ∀ v, mapLookup m name = some v → R (name, v) (name, d)) :
    List.Forall₂ R m (mapWrite m name d) := by
  induction m with
  | nil => exact List.Forall₂.nil
  | cons e rest ih =>
    obtain ⟨k, w⟩ := e
    by_cases hk : k = name
    · subst hk
      simp only [mapWrite, if_true]
      refine List.Forall₂.cons (hnew w (by simp [mapLookup])) ?_
      exact List.forall₂_same.mpr (fun e _ => hsame e)
    · simp only [mapWrite, hk, if_false]
      refine List.Forall₂.cons (hsame _) (ih ?_)
      intro v hv
      exact hnew v (by simp [mapLookup, hk, hv])

theorem findConfig_eq_none_iff (l : List ServiceConfig) (name : String) :
    findConfig l name = none ↔ name ∉ l.map ServiceConfig.Name := by
  induction l with
  | nil => simp [findConfig]
  | cons svc rest ih =>
    by_cases hk : svc.Name = name
    · simp [findConfig, hk]
    · have hk2 : ¬ name = svc.Name := fun h => hk h.symm
      simp only [findConfig, hk, if_false, ih]
      simp [hk2]

theorem findConfig_some (l : List ServiceConfig) (name : String) (svc : ServiceConfig)
    (h : findConfig l name = some svc) : svc ∈ l ∧ svc.Name = name := by
  induction l with
  | nil => simp [findConfig] at h
  | cons s rest ih =>
    by_cases hk : s.Name = name
    · simp only [findConfig, hk, if_true, Option.some.injEq] at h
      subst h
      exact ⟨List.mem_cons_self _ _, hk⟩
    · simp only [findConfig, hk, if_false] at h
      exact ⟨List.mem_cons_of_mem _ (ih h).1, (ih h).2⟩

/-! ## Lemmas on `RefreshService` -/

theorem RefreshService_eq (ds : DocService) (name : String) (env : Env)
    (doc : ServiceDoc) (svc : ServiceConfig)
    (hdoc : mapLookup ds.docs name = some doc)
    (hsvc : findConfig ds.config.Services name = some svc) :
    RefreshService ds name env =
      ({ ds with docs := mapWrite ds.docs name (refreshedDoc doc svc env) },
        (fetchSwaggerDoc env (svc.BaseURL ++ svc.DocPath)).2) := by
  simp only [RefreshService, hdoc, hsvc, refreshedDoc]

theorem RefreshService_config (ds : DocService) (name : String) (env : Env) :
    (RefreshService ds name env).1.config = ds.config := by
  unfold RefreshService
  split
  · rfl
  · split <;> rfl

theorem RefreshService_keys (ds : DocService) (name : String) (env : Env) :
    cacheKeys (RefreshService ds name env).1 = cacheKeys ds := by
  unfold RefreshService
  split
  · rfl
  · split
    · rfl
    · simp [cacheKeys, keys_mapWrite]

theorem refreshedDoc_sameIdentity (doc : ServiceDoc) (svc : ServiceConfig) (env : Env) :
    sameIdentity doc (refreshedDoc doc svc env) := by
  unfold refreshedDoc sameIdentity
  split <;> simp

theorem fetchSwaggerDoc_error_iff (env : Env) (url : String) :
    (fetchSwaggerDoc env url).2 ≠ none ↔
      (∃ err, env.docGet url = .failed err) ∨
      (∃ code body, env.docGet url = .response code body ∧ code ≠ 200) ∨
      (∃ err, env.docGet url = .response 200 (.readError err)) ∨
      (∃ data err, env.docGet url = .response 200 (.bytes data) ∧
        env.unmarshal data = .error err) := by
  unfold fetchSwaggerDoc
  cases hget : env.docGet url with
  | failed err => simp
  | response code body =>
    by_cases hcode : code = 200
    · subst hcode
      cases body with
      | readError err => simp
      | bytes data =>
        cases hu : env.unmarshal data with
        | error err => simp [hu]
        | ok d => simp [hu]
    · simp [hcode]

theorem fetchSwaggerDoc_error_payload (env : Env) (url : String)
    (h : (fetchSwaggerDoc env url).2 ≠ none) : (fetchSwaggerDoc env url).1 = none := by
  unfold fetchSwaggerDoc at h ⊢
  cases hget : env.docGet url with
  | failed err => rfl
  | response code body =>
    simp only [hget] at h
    by_cases hcode : code = 200
    · subst hcode
      cases body with
      | readError err => simp
      | bytes data =>
        cases hu : env.unmarshal data with
        | error err => simp [hu]
        | ok d => simp [hu] at h
    · simp [hcode]

/-! ## C1: a failed fetch keeps the document -/

/-- C1: when the name has a cache record `doc` and a configuration `svc` (it is a registered
service) and the document fetch of this attempt returns an error, `RefreshService` leaves
under that name the record `doc` with only `Healthy` set to the health-check outcome and
`LastUpdated` set to the time of the attempt: the document is the one cached before. -/
theorem RefreshService_failed_fetch_keeps_document
    (ds : DocService) (name : String) (env : Env) (doc : ServiceDoc) (svc : ServiceConfig)
    (hdoc : mapLookup ds.docs name = some doc)
    (hsvc : findConfig ds.config.Services name = some svc)
    (hfail : (fetchSwaggerDoc env (svc.BaseURL ++ svc.DocPath)).2 ≠ none) :
    mapLookup (RefreshService ds name env).1.docs name =
        some { doc with
          Healthy := checkHealth env (svc.BaseURL ++ svc.HealthCheck)
          LastUpdated := env.now } ∧
      ∀ doc', mapLookup (RefreshService ds name env).1.docs name = some doc' →
        doc'.SwaggerDoc = doc.SwaggerDoc ∧
        doc'.Healthy = checkHealth env (svc.BaseURL ++ svc.HealthCheck) ∧
        doc'.LastUpdated = env.now := by
  have hw : mapLookup (RefreshService ds name env).1.docs name =
      some { doc with
        Healthy := checkHealth env (svc.BaseURL ++ svc.HealthCheck)
        LastUpdated := env.now } := by
    rw [RefreshService_eq ds name env doc svc hdoc hsvc]
    simp only
    rw [mapLookup_mapWrite_self _ _ _ doc hdoc]
    have hnone : (fetchSwaggerDoc env (svc.BaseURL ++ svc.DocPath)).2.isNone = false := by
      cases h2 : (fetchSwaggerDoc env (svc.BaseURL ++ svc.DocPath)).2 with
      | none => exact absurd h2 hfail
      | some e => rfl
    simp [refreshedDoc, hnone]
  refine ⟨hw, ?_⟩
  intro doc' h'
  rw [hw] at h'
  cases h'
  exact ⟨rfl, rfl, rfl⟩

/-- Witness for C1: `orders` holds a document, its document endpoint starts answering 500
while the health endpoint answers 200. -/
theorem RefreshService_failed_fetch_keeps_document_witness :
    mapLookup (RefreshService ordersCached "orders" (envDoc500 2)).1.docs "orders" =
        some { newServiceDoc ordersConfig with
          Healthy := true, LastUpdated := 2, SwaggerDoc := some openapiDoc } ∧
      (GetSwaggerJSON (RefreshService ordersCached "orders" (envDoc500 2)).1 "orders").1 =
        (some openapiDoc, none) :=
  ⟨(RefreshService_failed_fetch_keeps_document ordersCached "orders" (envDoc500 2)
      { newServiceDoc ordersConfig with
        Healthy := true, LastUpdated := 1, SwaggerDoc := some openapiDoc }
      ordersConfig rfl rfl (by decide)).1, rfl⟩

/-! ## C2: a successful fetch replaces the document -/

/-- C2, counterexample: `orders` holds the document `{"openapi":"3.0.0"}` and its document
endpoint answers 200 with the body `null`.  `fetchSwaggerDoc` returns no error and the nil
payload, yet after `RefreshService` (which also returns no error) the record still holds
the old document and `GetSwaggerJSON` returns it. -/
theorem RefreshService_null_payload_not_stored :
    fetchSwaggerDoc (envNull 2) (ordersConfig.BaseURL ++ ordersConfig.DocPath) = (none, none) ∧
      (RefreshService ordersCached "orders" (envNull 2)).2 = none ∧
      (mapLookup (RefreshService ordersCached "orders" (envNull 2)).1.docs "orders").map
          ServiceDoc.SwaggerDoc = some (some openapiDoc) ∧
      (GetSwaggerJSON (RefreshService ordersCached "orders" (envNull 2)).1 "orders").1 =
        (some openapiDoc, none) :=
  ⟨rfl, rfl, rfl, rfl⟩

/-- C2, amended: when the name has a cache record `doc` and a configuration `svc` and the
document fetch returns no error with payload `d`, then if `d` is not nil the record's
document after `RefreshService` is exactly `d`, whatever was cached before, and
`GetSwaggerJSON` returns `d` with no error; if `d` is nil the document is left as it was. -/
theorem RefreshService_stores_fetched_document
    (ds : DocService) (name : String) (env : Env) (doc : ServiceDoc) (svc : ServiceConfig)
    (d : Option JsonObject)
    (hdoc : mapLookup ds.docs name = some doc)
    (hsvc : findConfig ds.config.Services name = some svc)
    (hok : fetchSwaggerDoc env (svc.BaseURL ++ svc.DocPath) = (d, none)) :
    (d ≠ none →
      (mapLookup (RefreshService ds name env).1.docs name).map ServiceDoc.SwaggerDoc = some d ∧
      (GetSwaggerJSON (RefreshService ds name env).1 name).1 = (d, none)) ∧
    (d = none →
      (mapLookup (RefreshService ds name env).1.docs name).map ServiceDoc.SwaggerDoc =
        some doc.SwaggerDoc) := by
  have hrec : mapLookup (RefreshService ds name env).1.docs name =
      some (refreshedDoc doc svc env) := by
    rw [RefreshService_eq ds name env doc svc hdoc hsvc]
    exact mapLookup_mapWrite_self _ _ _ doc hdoc
  refine ⟨?_, ?_⟩
  · intro hd
    obtain ⟨x, rfl⟩ := Option.ne_none_iff_exists'.mp hd
    have h1 : (refreshedDoc doc svc env).SwaggerDoc = some x := by
      simp [refreshedDoc, hok]
    refine ⟨by rw [hrec, Option.map_some', h1], ?_⟩
    simp only [GetSwaggerJSON, hrec, h1]
  · intro hd
    subst hd
    rw [hrec, Option.map_some']
    simp [refreshedDoc, hok]

/-- Witness for C2: the first successful refresh of `orders` on the fresh cache. -/
theorem RefreshService_stores_fetched_document_witness :
    (mapLookup (RefreshService (buildDocs sampleConfig) "orders" (envUp 1)).1.docs
        "orders").map ServiceDoc.SwaggerDoc = some (some openapiDoc) ∧
      (GetSwaggerJSON (RefreshService (buildDocs sampleConfig) "orders" (envUp 1)).1
        "orders").1 = (some openapiDoc, none) :=
  (RefreshService_stores_fetched_document (buildDocs sampleConfig) "orders" (envUp 1)
    (newServiceDoc ordersConfig) ordersConfig (some openapiDoc) rfl rfl rfl).1 (by simp)

/-! ## C4: the returned error is the fetch error -/

/-- C4: for a name with a cache record and a configuration `svc`, `RefreshService` returns
exactly the error of the document fetch (so it returns an error if and only if the fetch
failed), whatever the health check did; the record is written in both cases, with `Healthy`
the health-check outcome and `LastUpdated` the time of the attempt; in particular a failed
health check with a successful fetch returns no error and records `Healthy = false`. -/
theorem RefreshService_returns_fetch_error
    (ds : DocService) (name : String) (env : Env) (doc : ServiceDoc) (svc : ServiceConfig)
    (hdoc : mapLookup ds.docs name = some doc)
    (hsvc : findConfig ds.config.Services name = some svc) :
    (RefreshService ds name env).2 = (fetchSwaggerDoc env (svc.BaseURL ++ svc.DocPath)).2 ∧
      ((RefreshService ds name env).2 ≠ none ↔
        (fetchSwaggerDoc env (svc.BaseURL ++ svc.DocPath)).2 ≠ none) ∧
      (∃ doc', mapLookup (RefreshService ds name env).1.docs name = some doc' ∧
        doc'.Healthy = checkHealth env (svc.BaseURL ++ svc.HealthCheck) ∧
        doc'.LastUpdated = env.now) ∧
      (checkHealth env (svc.BaseURL ++ svc.HealthCheck) = false →
        (fetchSwaggerDoc env (svc.BaseURL ++ svc.DocPath)).2 = none →
        (RefreshService ds name env).2 = none ∧
        ∃ doc', mapLookup (RefreshService ds name env).1.docs name = some doc' ∧
          doc'.Healthy = false) := by
  have herr : (RefreshService ds name env).2 =
      (fetchSwaggerDoc env (svc.BaseURL ++ svc.DocPath)).2 := by
    rw [RefreshService_eq ds name env doc svc hdoc hsvc]
  have hrec : mapLookup (RefreshService ds name env).1.docs name =
      some (refreshedDoc doc svc env) := by
    rw [RefreshService_eq ds name env doc svc hdoc hsvc]
    exact mapLookup_mapWrite_self _ _ _ doc hdoc
  have hh : (refreshedDoc doc svc env).Healthy =
      checkHealth env (svc.BaseURL ++ svc.HealthCheck) := by
    unfold refreshedDoc
    split <;> rfl
  have ht : (refreshedDoc doc svc env).LastUpdated = env.now := by
    unfold refreshedDoc
    split <;> rfl
  refine ⟨herr, by rw [herr], ⟨_, hrec, hh, ht⟩, ?_⟩
  intro hbad hnone
  exact ⟨herr.trans hnone, _, hrec, hh.trans hbad⟩

/-- Witness for C4: the health endpoint of `orders` answers 503 while its document endpoint
answers 200 with a document. -/
theorem RefreshService_returns_fetch_error_witness :
    (RefreshService ordersCached "orders" (envUnhealthy 2)).2 = none ∧
      (mapLookup (RefreshService ordersCached "orders" (envUnhealthy 2)).1.docs "orders").map
        ServiceDoc.Healthy = some false ∧
      (RefreshService ordersCached "orders" (envDown 3)).2 =
        some (.external "connection refused") :=
  ⟨((RefreshService_returns_fetch_error ordersCached "orders" (envUnhealthy 2)
      { newServiceDoc ordersConfig with
        Healthy := true, LastUpdated := 1, SwaggerDoc := some openapiDoc }
      ordersConfig rfl rfl).2.2.2 rfl rfl).1, rfl, rfl⟩

/-! ## Lemmas on construction and on runs of refreshes -/

theorem mem_keys_mapStore (m : List (String × ServiceDoc)) (name k : String)
    (d : ServiceDoc) :
    k ∈ (mapStore m name d).map Prod.fst ↔ k = name ∨ k ∈ m.map Prod.fst := by
  induction m with
  | nil => simp [mapStore]
  | cons e rest ih =>
    obtain ⟨k0, w⟩ := e
    by_cases hk : k0 = name
    · subst hk
      simp [mapStore]
    · simp only [mapStore, hk, if_false, List.map_cons, List.mem_cons, ih]
      tauto

theorem nodup_keys_mapStore (m : List (String × ServiceDoc)) (name : String)
    (d : ServiceDoc) (h : (m.map Prod.fst).Nodup) :
    ((mapStore m name d).map Prod.fst).Nodup := by
  induction m with
  | nil => simp [mapStore]
  | cons e rest ih =>
    obtain ⟨k0, w⟩ := e
    by_cases hk : k0 = name
    · subst hk
      simpa [mapStore] using h
    · simp only [List.map_cons, List.nodup_cons] at h
      simp only [mapStore, hk, if_false, List.map_cons, List.nodup_cons]
      refine ⟨?_, ih h.2⟩
      intro hmem
      rcases (mem_keys_mapStore rest name k0 d).mp hmem with h1 | h1
      · exact hk h1
      · exact h.1 h1

theorem mapLookup_mapStore (m : List (String × ServiceDoc)) (name k : String)
    (d : ServiceDoc) :
    mapLookup (mapStore m name d) k = if name = k then some d else mapLookup m k := by
  induction m with
  | nil => simp [mapStore, mapLookup]
  | cons e rest ih =>
    obtain ⟨k0, w⟩ := e
    by_cases hk : k0 = name
    · subst hk
      by_cases hk1 : k0 = k <;> simp [mapStore, mapLookup, hk1]
    · by_cases hk1 : k0 = k
      · subst hk1
        simp [mapStore, mapLookup, hk, Ne.symm hk]
      · simp [mapStore, mapLookup, hk, hk1, ih]

/-- The initialisation loop started from any service. -/
theorem buildLoop_spec (l : List ServiceConfig) (ds0 : DocService) :
    (l.foldl
      (fun ds svc => { ds with docs := mapStore ds.docs svc.Name (newServiceDoc svc) })
      ds0).config = ds0.config ∧
    (∀ k, k ∈ cacheKeys (l.foldl
      (fun ds svc => { ds with docs := mapStore ds.docs svc.Name (newServiceDoc svc) })
      ds0) ↔ k ∈ cacheKeys ds0 ∨ k ∈ l.map ServiceConfig.Name) ∧
    ((cacheKeys ds0).Nodup → (cacheKeys (l.foldl
      (fun ds svc => { ds with docs := mapStore ds.docs svc.Name (newServiceDoc svc) })
      ds0)).Nodup) ∧
    (∀ k doc, mapLookup (l.foldl
      (fun ds svc => { ds with docs := mapStore ds.docs svc.Name (newServiceDoc svc) })
      ds0).docs k = some doc →
        mapLookup ds0.docs k = some doc ∨
        ∃ svc ∈ l, svc.Name = k ∧ doc = newServiceDoc svc) := by
  induction l generalizing ds0 with
  | nil => simp
  | cons svc rest ih =>
    simp only [List.foldl_cons]
    obtain ⟨h1, h2, h3, h4⟩ :=
      ih { ds0 with docs := mapStore ds0.docs svc.Name (newServiceDoc svc) }
    refine ⟨h1, ?_, ?_, ?_⟩
    · intro k
      rw [h2 k]
      simp only [cacheKeys, mem_keys_mapStore, List.map_cons, List.mem_cons]
      tauto
    · intro hn
      exact h3 (nodup_keys_mapStore _ _ _ hn)
    · intro k doc hk
      rcases h4 k doc hk with h | ⟨s, hs, hsk, hd⟩
      · simp only [mapLookup_mapStore] at h
        by_cases hname : svc.Name = k
        · simp only [hname, if_true, Option.some.injEq] at h
          exact Or.inr ⟨svc, List.mem_cons_self _ _, hname, h.symm⟩
        · simp only [hname, if_false] at h
          exact Or.inl h
      · exact Or.inr ⟨s, List.mem_cons_of_mem _ hs, hsk, hd⟩

theorem buildDocs_config (cfg : Config) : (buildDocs cfg).config = cfg :=
  (buildLoop_spec cfg.Services { config := cfg, docs := [] }).1

theorem mem_cacheKeys_buildDocs (cfg : Config) (k : String) :
    k ∈ cacheKeys (buildDocs cfg) ↔ k ∈ registryNames cfg := by
  have h := (buildLoop_spec cfg.Services { config := cfg, docs := [] }).2.1 k
  simpa [cacheKeys, registryNames, buildDocs] using h

theorem nodup_cacheKeys_buildDocs (cfg : Config) : (cacheKeys (buildDocs cfg)).Nodup :=
  (buildLoop_spec cfg.Services { config := cfg, docs := [] }).2.2.1 (by simp [cacheKeys])

theorem mapLookup_buildDocs (cfg : Config) (k : String) (doc : ServiceDoc)
    (h : mapLookup (buildDocs cfg).docs k = some doc) :
    ∃ svc ∈ cfg.Services, svc.Name = k ∧ doc = newServiceDoc svc := by
  rcases (buildLoop_spec cfg.Services { config := cfg, docs := [] }).2.2.2 k doc h with h1 | h1
  · simp [mapLookup] at h1
  · exact h1

theorem runRefreshes_config (ds : DocService) (attempts : List (String × Env)) :
    (runRefreshes ds attempts).config = ds.config := by
  induction attempts generalizing ds with
  | nil => rfl
  | cons a rest ih =>
    simp only [runRefreshes, List.foldl_cons] at ih ⊢
    rw [ih, RefreshService_config]

theorem runRefreshes_keys (ds : DocService) (attempts : List (String × Env)) :
    cacheKeys (runRefreshes ds attempts) = cacheKeys ds := by
  induction attempts generalizing ds with
  | nil => rfl
  | cons a rest ih =>
    simp only [runRefreshes, List.foldl_cons] at ih ⊢
    rw [ih, RefreshService_keys]

theorem mem_writeOrder (n : Nat) (sched : List Nat) (a : Nat) :
    a ∈ writeOrder n sched ↔ a < n := by
  simp only [writeOrder, List.mem_append, List.mem_dedup, List.mem_filter, List.mem_range,
    decide_eq_true_eq]
  by_cases h : a ∈ sched
  · simp [h]
  · simp [h]

theorem nodup_writeOrder (n : Nat) (sched : List Nat) : (writeOrder n sched).Nodup := by
  unfold writeOrder
  refine List.Nodup.append (List.nodup_dedup _) ((List.nodup_range n).filter _) ?_
  intro a h1 h2
  simp only [List.mem_dedup, List.mem_filter, decide_eq_true_eq] at h1 h2
  exact h2.2 h1.1

/-- Every task of the cycle writes exactly once, whatever the schedule. -/
theorem writeOrder_perm (n : Nat) (sched : List Nat) :
    (writeOrder n sched).Perm (List.range n) :=
  (List.perm_ext_iff_of_nodup (nodup_writeOrder n sched) (List.nodup_range n)).mpr
    (fun a => by rw [mem_writeOrder, List.mem_range])

/-- Every order of the tasks is chosen by some schedule, namely by itself. -/
theorem writeOrder_of_perm (n : Nat) (order : List Nat)
    (h : order.Perm (List.range n)) : writeOrder n order = order := by
  have hnd : order.Nodup := h.nodup_iff.mpr (List.nodup_range n)
  have hlt : ∀ a ∈ order, a < n := fun a ha => List.mem_range.mp (h.mem_iff.mp ha)
  have h1 : order.filter (fun i => decide (i < n)) = order :=
    List.filter_eq_self.mpr (fun a ha => by simpa using hlt a ha)
  have h2 : (List.range n).filter (fun i => decide (i ∉ order)) = [] :=
    List.filter_eq_nil_iff.mpr
      (fun a ha => by simpa using h.mem_iff.mpr ha)
  unfold writeOrder
  rw [h1, h2, List.append_nil, hnd.dedup]

theorem RefreshAll_eq_runRefreshes (ds : DocService) (envs : Nat → Env) (sched : List Nat) :
    (RefreshAll ds envs sched).1 =
      runRefreshes ds
        (cycleTasks ds.config envs (writeOrder ds.config.Services.length sched)) := by
  unfold RefreshAll runRefreshes cycleTasks
  simp only
  generalize writeOrder ds.config.Services.length sched = order
  generalize ds.config.Services = l
  generalize hs : ds = s
  clear hs
  induction order generalizing s with
  | nil => rfl
  | cons i rest ih =>
    simp only [List.foldl_cons, List.filterMap_cons]
    cases hi : l.get? i with
    | none => simpa using ih s
    | some svc => simpa using ih _

theorem RefreshAll_keys (ds : DocService) (envs : Nat → Env) (sched : List Nat) :
    cacheKeys (RefreshAll ds envs sched).1 = cacheKeys ds := by
  rw [RefreshAll_eq_runRefreshes, runRefreshes_keys]

theorem RefreshAll_config (ds : DocService) (envs : Nat → Env) (sched : List Nat) :
    (RefreshAll ds envs sched).1.config = ds.config := by
  rw [RefreshAll_eq_runRefreshes, runRefreshes_config]

/-! ## C8: an unknown name -/

/-- C8: when the name is not a key of the cache, `RefreshService` returns the not-found
error and the service unchanged; and in a service built by `buildDocs` from a configuration
and then refreshed any number of times, this is the case of every name that is not the name
of a configured service. -/
theorem RefreshService_unknown_name :
    (∀ (ds : DocService) (name : String) (env : Env), name ∉ cacheKeys ds →
      RefreshService ds name env = (ds, some (.serviceNotFound name))) ∧
    (∀ (cfg : Config) (attempts : List (String × Env)) (name : String) (env : Env),
      name ∉ registryNames cfg →
      RefreshService (runRefreshes (buildDocs cfg) attempts) name env =
        (runRefreshes (buildDocs cfg) attempts, some (.serviceNotFound name))) := by
  have key : ∀ (ds : DocService) (name : String) (env : Env), name ∉ cacheKeys ds →
      RefreshService ds name env = (ds, some (.serviceNotFound name)) := by
    intro ds name env h
    have hnone : mapLookup ds.docs name = none := (mapLookup_eq_none_iff _ _).mpr h
    simp only [RefreshService, hnone]
  refine ⟨key, ?_⟩
  intro cfg attempts name env h
  apply key
  rw [runRefreshes_keys, mem_cacheKeys_buildDocs]
  exact h

/-- Witness for C8: the name `unknown` on the sample service. -/
theorem RefreshService_unknown_name_witness :
    RefreshService ordersCached "unknown" (envUp 5) =
      (ordersCached, some (.serviceNotFound "unknown")) :=
  RefreshService_unknown_name.1 ordersCached "unknown" (envUp 5) (by decide)

/-! ## Lemmas on the frame of `RefreshService` -/

theorem sameIdentity_refl (a : ServiceDoc) : sameIdentity a a :=
  ⟨rfl, rfl, rfl, rfl, rfl, rfl, rfl, rfl⟩

theorem sameIdentity_trans {a b c : ServiceDoc} (h1 : sameIdentity a b)
    (h2 : sameIdentity b c) : sameIdentity a c := by
  obtain ⟨a1, a2, a3, a4, a5, a6, a7, a8⟩ := h1
  obtain ⟨b1, b2, b3, b4, b5, b6, b7, b8⟩ := h2
  exact ⟨a1.trans b1, a2.trans b2, a3.trans b3, a4.trans b4, a5.trans b5, a6.trans b6,
    a7.trans b7, a8.trans b8⟩

theorem RefreshService_lookup_ne (ds : DocService) (name k : String) (env : Env)
    (h : k ≠ name) :
    mapLookup (RefreshService ds name env).1.docs k = mapLookup ds.docs k := by
  unfold RefreshService
  split
  · rfl
  · split
    · rfl
    · exact mapLookup_mapWrite_ne _ _ _ _ h

theorem RefreshService_lookup_identity (ds : DocService) (name k : String) (env : Env)
    (doc' : ServiceDoc) (h : mapLookup (RefreshService ds name env).1.docs k = some doc') :
    ∃ doc0, mapLookup ds.docs k = some doc0 ∧ sameIdentity doc0 doc' := by
  by_cases hk : k = name
  · subst hk
    cases hdoc : mapLookup ds.docs k with
    | none =>
      simp only [RefreshService, hdoc] at h
      cases h
    | some doc =>
      cases hsvc : findConfig ds.config.Services k with
      | none =>
        simp only [RefreshService, hdoc, hsvc] at h
        cases h
        exact ⟨doc', rfl, sameIdentity_refl _⟩
      | some svc =>
        rw [RefreshService_eq ds k env doc svc hdoc hsvc] at h
        simp only at h
        rw [mapLookup_mapWrite_self _ _ _ doc hdoc] at h
        cases h
        exact ⟨doc, rfl, refreshedDoc_sameIdentity doc svc env⟩
  · rw [RefreshService_lookup_ne ds name k env hk] at h
    exact ⟨doc', h, sameIdentity_refl _⟩

theorem runRefreshes_lookup_identity (ds : DocService) (attempts : List (String × Env))
    (k : String) (doc' : ServiceDoc)
    (h : mapLookup (runRefreshes ds attempts).docs k = some doc') :
    ∃ doc0, mapLookup ds.docs k = some doc0 ∧ sameIdentity doc0 doc' := by
  induction attempts generalizing ds with
  | nil => exact ⟨doc', h, sameIdentity_refl _⟩
  | cons a rest ih =>
    simp only [runRefreshes, List.foldl_cons] at ih h
    obtain ⟨d1, h1, s1⟩ := ih _ h
    obtain ⟨d0, h0, s0⟩ := RefreshService_lookup_identity ds a.1 k a.2 d1 h1
    exact ⟨d0, h0, sameIdentity_trans s0 s1⟩

theorem GetCatalog_loop (l : List (String × ServiceDoc)) (init : List ServiceDoc) :
    l.foldl
      (fun catalog entry =>
        catalog ++
          [({ Name := entry.2.Name
              DisplayName := entry.2.DisplayName
              Description := entry.2.Description
              Status := entry.2.Status
              Owner := entry.2.Owner
              Tags := entry.2.Tags
              BaseURL := entry.2.BaseURL
              DocURL := entry.2.DocURL
              Healthy := entry.2.Healthy
              LastUpdated := entry.2.LastUpdated
              SwaggerDoc := none } : ServiceDoc)])
      init =
    init ++ l.map (fun entry => { entry.2 with SwaggerDoc := none }) := by
  induction l generalizing init with
  | nil => simp
  | cons e rest ih =>
    simp only [List.foldl_cons, List.map_cons]
    rw [ih]
    simp

/-! ## C6: the catalog -/

/-- C6: `GetCatalog` returns one summary per cache record, in the order the records are
ranged over; every summary has no document payload, whether or not the record has one, and
agrees with its record on name, display name, description, status, owner, tags, base URL,
document URL, `Healthy` and `LastUpdated`; the service is returned unchanged. -/
theorem GetCatalog_summaries (ds : DocService) :
    (GetCatalog ds).2 = ds ∧
    (GetCatalog ds).1.length = ds.docs.length ∧
    List.Forall₂
      (fun (entry : String × ServiceDoc) (summary : ServiceDoc) =>
        summary.SwaggerDoc = none ∧
        summary.Name = entry.2.Name ∧ summary.DisplayName = entry.2.DisplayName ∧
        summary.Description = entry.2.Description ∧ summary.Status = entry.2.Status ∧
        summary.Owner = entry.2.Owner ∧ summary.Tags = entry.2.Tags ∧
        summary.BaseURL = entry.2.BaseURL ∧ summary.DocURL = entry.2.DocURL ∧
        summary.Healthy = entry.2.Healthy ∧ summary.LastUpdated = entry.2.LastUpdated)
      ds.docs (GetCatalog ds).1 := by
  have h : (GetCatalog ds).1 = ds.docs.map (fun entry => { entry.2 with SwaggerDoc := none }) := by
    simp only [GetCatalog]
    rw [GetCatalog_loop]
    simp
  refine ⟨rfl, by rw [h, List.length_map], ?_⟩
  rw [h, List.forall₂_map_right_iff, List.forall₂_same]
  intro e _
  exact ⟨rfl, rfl, rfl, rfl, rfl, rfl, rfl, rfl, rfl, rfl, rfl⟩

/-! ## C9: nothing else is written -/

/-- C9: `RefreshService` leaves the configuration alone and maps the list of cache records
to a list of the same length and keys in which every record under another name is the very
same record and the records under the given name keep their identity fields; and in a
service built from a configuration and refreshed any number of times, every record has the
identity fields of a configured service of its name, as copied at construction, with the
document URL equal to the base URL followed by the document path. -/
theorem RefreshService_frame :
    (∀ (ds : DocService) (name : String) (env : Env),
      (RefreshService ds name env).1.config = ds.config ∧
      List.Forall₂
        (fun (before after : String × ServiceDoc) =>
          after.1 = before.1 ∧ (before.1 ≠ name → after = before) ∧
          sameIdentity before.2 after.2)
        ds.docs (RefreshService ds name env).1.docs) ∧
    (∀ (cfg : Config) (attempts : List (String × Env)) (k : String) (doc : ServiceDoc),
      mapLookup (runRefreshes (buildDocs cfg) attempts).docs k = some doc →
      ∃ svc ∈ cfg.Services, svc.Name = k ∧
        mapLookup (buildDocs cfg).docs k = some (newServiceDoc svc) ∧
        doc.Name = svc.Name ∧ doc.DisplayName = svc.DisplayName ∧
        doc.Description = svc.Description ∧ doc.Status = svc.Status ∧
        doc.Owner = svc.Owner ∧ doc.Tags = svc.Tags ∧ doc.BaseURL = svc.BaseURL ∧
        doc.DocURL = svc.BaseURL ++ svc.DocPath) := by
  refine ⟨?_, ?_⟩
  · intro ds name env
    refine ⟨RefreshService_config ds name env, ?_⟩
    have hsame : ∀ e : String × ServiceDoc,
        e.1 = e.1 ∧ (e.1 ≠ name → e = e) ∧ sameIdentity e.2 e.2 :=
      fun e => ⟨rfl, fun _ => rfl, sameIdentity_refl _⟩
    cases hdoc : mapLookup ds.docs name with
    | none =>
      simp only [RefreshService, hdoc]
      exact List.forall₂_same.mpr (fun e _ => hsame e)
    | some doc =>
      cases hsvc : findConfig ds.config.Services name with
      | none =>
        simp only [RefreshService, hdoc, hsvc]
        exact List.forall₂_same.mpr (fun e _ => hsame e)
      | some svc =>
        rw [RefreshService_eq ds name env doc svc hdoc hsvc]
        refine mapWrite_forall₂ ds.docs name _ _ hsame ?_
        intro v hv
        rw [hdoc] at hv
        cases hv
        exact ⟨rfl, fun h => absurd rfl h, refreshedDoc_sameIdentity doc svc env⟩
  · intro cfg attempts k doc h
    obtain ⟨doc0, h0, hid⟩ := runRefreshes_lookup_identity _ _ _ _ h
    obtain ⟨svc, hmem, hname, hd⟩ := mapLookup_buildDocs cfg k doc0 h0
    subst hd
    obtain ⟨i1, i2, i3, i4, i5, i6, i7, i8⟩ := hid
    exact ⟨svc, hmem, hname, h0, i1.symm, i2.symm, i3.symm, i4.symm, i5.symm, i6.symm,
      i7.symm, i8.symm⟩

/-- Witness for C9: the record of `orders` after a successful and then a failed refresh. -/
theorem RefreshService_frame_witness :
    ∃ svc ∈ sampleConfig.Services, svc.Name = "orders" ∧
      mapLookup (buildDocs sampleConfig).docs "orders" = some (newServiceDoc svc) ∧
      "orders" = svc.Name ∧ "Orders" = svc.DisplayName ∧
      "order management" = svc.Description ∧ "active" = svc.Status ∧
      "team-a" = svc.Owner ∧ ["core"] = svc.Tags ∧ "http://orders" = svc.BaseURL ∧
      "http://orders/swagger.json" = svc.BaseURL ++ svc.DocPath :=
  RefreshService_frame.2 sampleConfig [("orders", envUp 1), ("orders", envDoc500 2)] "orders"
    { newServiceDoc ordersConfig with
      Healthy := true, LastUpdated := 2, SwaggerDoc := some openapiDoc } rfl

/-! ## C5: the key set is fixed -/

/-- C5: the cache built by `NewDocService` has no repeated key and its keys are exactly the
names of the configured services; every operation (`RefreshService` with any name and
outcome, `RefreshAll`, `GetCatalog`, `GetServiceDoc`, `GetSwaggerJSON`) returns a service
with the same keys, so after any sequence of operations the keys are still those. -/
theorem cacheKeys_fixed :
    (∀ cfg : Config, (cacheKeys (buildDocs cfg)).Nodup ∧
      ∀ name, name ∈ cacheKeys (buildDocs cfg) ↔ name ∈ registryNames cfg) ∧
    (∀ (ds : DocService) (op : Op), cacheKeys (Op.apply ds op) = cacheKeys ds) ∧
    (∀ (cfg : Config) (ops : List Op),
      cacheKeys (ops.foldl Op.apply (buildDocs cfg)) = cacheKeys (buildDocs cfg)) := by
  have hop : ∀ (ds : DocService) (op : Op), cacheKeys (Op.apply ds op) = cacheKeys ds := by
    intro ds op
    cases op with
    | refreshService name env => exact RefreshService_keys ds name env
    | refreshAll envs sched => exact RefreshAll_keys ds envs sched
    | getCatalog => rfl
    | getServiceDoc name =>
      simp only [Op.apply, GetServiceDoc]
      split <;> rfl
    | getSwaggerJSON name =>
      simp only [Op.apply, GetSwaggerJSON]
      split
      · rfl
      · split <;> rfl
  refine ⟨fun cfg => ⟨nodup_cacheKeys_buildDocs cfg, mem_cacheKeys_buildDocs cfg⟩, hop, ?_⟩
  intro cfg ops
  generalize buildDocs cfg = ds
  induction ops generalizing ds with
  | nil => rfl
  | cons op rest ih =>
    simp only [List.foldl_cons]
    rw [ih, hop]

/-! ## C3: when `GetSwaggerJSON` fails -/

theorem findConfig_isSome_of_mem (l : List ServiceConfig) (name : String)
    (h : name ∈ l.map ServiceConfig.Name) : ∃ svc, findConfig l name = some svc := by
  cases hf : findConfig l name with
  | none => exact absurd h ((findConfig_eq_none_iff l name).mp hf)
  | some svc => exact ⟨svc, rfl⟩

theorem refreshedDoc_swagger_none_iff (doc : ServiceDoc) (svc : ServiceConfig) (env : Env) :
    (refreshedDoc doc svc env).SwaggerDoc = none ↔
      doc.SwaggerDoc = none ∧
        ((fetchSwaggerDoc env (svc.BaseURL ++ svc.DocPath)).2.isNone
          && (fetchSwaggerDoc env (svc.BaseURL ++ svc.DocPath)).1.isSome) = false := by
  unfold refreshedDoc
  by_cases hc : ((fetchSwaggerDoc env (svc.BaseURL ++ svc.DocPath)).2.isNone
      && (fetchSwaggerDoc env (svc.BaseURL ++ svc.DocPath)).1.isSome) = true
  · rw [if_pos hc]
    simp only [Bool.and_eq_true] at hc
    obtain ⟨x, hx⟩ := Option.isSome_iff_exists.mp hc.2
    simp [hx, hc.1]
  · rw [if_neg hc]
    simp only [Bool.not_eq_true] at hc
    simp [hc]

/-- The document of `name` after a run of refreshes is nil exactly when it was nil before
and no attempt of the run stored one. -/
theorem runRefreshes_swagger_none_iff (attempts : List (String × Env)) (ds : DocService)
    (name : String) (doc : ServiceDoc) (svc : ServiceConfig)
    (hdoc : mapLookup ds.docs name = some doc)
    (hsvc : findConfig ds.config.Services name = some svc) :
    ∃ doc', mapLookup (runRefreshes ds attempts).docs name = some doc' ∧
      (doc'.SwaggerDoc = none ↔
        doc.SwaggerDoc = none ∧ ∀ a ∈ attempts, fetchStored ds.config name a = false) := by
  induction attempts generalizing ds doc with
  | nil => exact ⟨doc, hdoc, by simp⟩
  | cons a rest ih =>
    simp only [runRefreshes, List.foldl_cons] at ih ⊢
    have hcfg : (RefreshService ds a.1 a.2).1.config = ds.config :=
      RefreshService_config ds a.1 a.2
    by_cases ha : a.1 = name
    · have hstep : mapLookup (RefreshService ds a.1 a.2).1.docs name =
          some (refreshedDoc doc svc a.2) := by
        rw [ha, RefreshService_eq ds name a.2 doc svc hdoc hsvc]
        exact mapLookup_mapWrite_self _ _ _ doc hdoc
      obtain ⟨doc', h1, h2⟩ := ih (RefreshService ds a.1 a.2).1 (refreshedDoc doc svc a.2)
        hstep (by rw [hcfg]; exact hsvc)
      refine ⟨doc', h1, ?_⟩
      rw [h2, refreshedDoc_swagger_none_iff, hcfg]
      have hst : fetchStored ds.config name a =
          ((fetchSwaggerDoc a.2 (svc.BaseURL ++ svc.DocPath)).2.isNone
            && (fetchSwaggerDoc a.2 (svc.BaseURL ++ svc.DocPath)).1.isSome) := by
        simp [fetchStored, ha, hsvc]
      simp only [List.mem_cons, forall_eq_or_imp, hst]
      tauto
    · have hstep : mapLookup (RefreshService ds a.1 a.2).1.docs name = some doc := by
        rw [RefreshService_lookup_ne ds a.1 name a.2 (fun h => ha h.symm)]
        exact hdoc
      obtain ⟨doc', h1, h2⟩ := ih (RefreshService ds a.1 a.2).1 doc hstep
        (by rw [hcfg]; exact hsvc)
      refine ⟨doc', h1, ?_⟩
      rw [h2, hcfg]
      have hst : fetchStored ds.config name a = false := by
        simp [fetchStored, ha]
      simp only [List.mem_cons, forall_eq_or_imp, hst]
      tauto

/-- C3, counterexample: on the freshly built cache one refresh of `orders` whose document
endpoint answers 200 with the body `null` completes with no error, from `fetchSwaggerDoc`
and from `RefreshService`, and `GetSwaggerJSON` still fails with the not-available error. -/
theorem GetSwaggerJSON_not_available_after_null_fetch :
    (fetchSwaggerDoc (envNull 1) (ordersConfig.BaseURL ++ ordersConfig.DocPath)).2 = none ∧
      (RefreshService (buildDocs sampleConfig) "orders" (envNull 1)).2 = none ∧
      (GetSwaggerJSON (runRefreshes (buildDocs sampleConfig) [("orders", envNull 1)])
        "orders").1 = (none, some (.docNotAvailable "orders")) :=
  ⟨rfl, rfl, rfl⟩

/-- C3, amended: `GetSwaggerJSON` fails with the not-found error exactly when the name is
not a key of the cache; for the name of a configured service, after any sequence of refresh
attempts applied to the freshly built cache, it fails with the not-available error exactly
when no attempt of the sequence on that name fetched, without error, a document that is not
nil, and otherwise it returns the cached document with no error. -/
theorem GetSwaggerJSON_errors :
    (∀ (ds : DocService) (name : String),
      (GetSwaggerJSON ds name).1 = (none, some (.serviceNotFound name)) ↔
        name ∉ cacheKeys ds) ∧
    (∀ (cfg : Config) (attempts : List (String × Env)) (name : String),
      name ∈ registryNames cfg →
      ((GetSwaggerJSON (runRefreshes (buildDocs cfg) attempts) name).1 =
          (none, some (.docNotAvailable name)) ↔
        ∀ a ∈ attempts, fetchStored cfg name a = false) ∧
      ((∃ a ∈ attempts, fetchStored cfg name a = true) →
        ∃ doc d, mapLookup (runRefreshes (buildDocs cfg) attempts).docs name = some doc ∧
          doc.SwaggerDoc = some d ∧
          (GetSwaggerJSON (runRefreshes (buildDocs cfg) attempts) name).1 =
            (some d, none))) := by
  refine ⟨?_, ?_⟩
  · intro ds name
    unfold cacheKeys
    rw [← mapLookup_eq_none_iff]
    unfold GetSwaggerJSON
    cases hdoc : mapLookup ds.docs name with
    | none => simp
    | some doc =>
      cases hsw : doc.SwaggerDoc with
      | none => simp [hsw]
      | some d => simp [hsw]
  · intro cfg attempts name hreg
    obtain ⟨svc, hsvc⟩ := findConfig_isSome_of_mem cfg.Services name hreg
    obtain ⟨doc0, hdoc0⟩ := (mapLookup_isSome_iff (buildDocs cfg).docs name).mpr
      ((mem_cacheKeys_buildDocs cfg name).mpr hreg)
    obtain ⟨s0, _, _, hnew⟩ := mapLookup_buildDocs cfg name doc0 hdoc0
    have hnil : doc0.SwaggerDoc = none := by
      rw [hnew]
      rfl
    obtain ⟨doc', h1, h2⟩ := runRefreshes_swagger_none_iff attempts (buildDocs cfg) name doc0
      svc hdoc0 (by rw [buildDocs_config]; exact hsvc)
    rw [buildDocs_config] at h2
    have h3 : doc'.SwaggerDoc = none ↔ ∀ a ∈ attempts, fetchStored cfg name a = false := by
      rw [h2]
      exact ⟨fun h => h.2, fun h => ⟨hnil, h⟩⟩
    refine ⟨?_, ?_⟩
    · rw [← h3]
      unfold GetSwaggerJSON
      rw [h1]
      cases hsw : doc'.SwaggerDoc with
      | none => simp [hsw]
      | some d => simp [hsw]
    · rintro ⟨a, ha, hst⟩
      cases hsw : doc'.SwaggerDoc with
      | none =>
        have := h3.mp hsw a ha
        rw [hst] at this
        cases this
      | some d =>
        refine ⟨doc', d, h1, hsw, ?_⟩
        unfold GetSwaggerJSON
        rw [h1]
        simp only [hsw]

/-- Witness for C3: `orders` after a fetch of `null`, a transport failure and a fetch of a
document; `users`, never fetched with success, in the same cache. -/
theorem GetSwaggerJSON_errors_witness :
    ((GetSwaggerJSON
        (runRefreshes (buildDocs sampleConfig)
          [("orders", envNull 1), ("orders", envDown 2), ("orders", envUp 3)])
        "users").1 = (none, some (.docNotAvailable "users")) ↔
      ∀ a ∈ [("orders", envNull 1), ("orders", envDown 2), ("orders", envUp 3)],
        fetchStored sampleConfig "users" a = false) ∧
    ∃ doc d, mapLookup
        (runRefreshes (buildDocs sampleConfig)
          [("orders", envNull 1), ("orders", envDown 2), ("orders", envUp 3)]).docs
        "orders" = some doc ∧
      doc.SwaggerDoc = some d ∧
      (GetSwaggerJSON
        (runRefreshes (buildDocs sampleConfig)
          [("orders", envNull 1), ("orders", envDown 2), ("orders", envUp 3)])
        "orders").1 = (some d, none) :=
  ⟨(GetSwaggerJSON_errors.2 sampleConfig
      [("orders", envNull 1), ("orders", envDown 2), ("orders", envUp 3)] "users"
      (by decide)).1,
    (GetSwaggerJSON_errors.2 sampleConfig
      [("orders", envNull 1), ("orders", envDown 2), ("orders", envUp 3)] "orders"
      (by decide)).2 ⟨("orders", envUp 3), by simp, rfl⟩⟩

/-! ## C7: what a full cycle leaves in the cache -/

theorem findConfig_of_get? (l : List ServiceConfig)
    (hnd : (l.map ServiceConfig.Name).Nodup) (i : Nat) (svc : ServiceConfig)
    (h : l.get? i = some svc) : findConfig l svc.Name = some svc := by
  induction l generalizing i with
  | nil => simp at h
  | cons s rest ih =>
    simp only [List.map_cons, List.nodup_cons] at hnd
    cases i with
    | zero =>
      simp only [List.get?_cons_zero, Option.some.injEq] at h
      subst h
      simp [findConfig]
    | succ j =>
      simp only [List.get?_cons_succ] at h
      have hmem : svc.Name ∈ rest.map ServiceConfig.Name :=
        List.mem_map_of_mem _ (List.get?_mem h)
      have hne : s.Name ≠ svc.Name := fun e => hnd.1 (e ▸ hmem)
      simp only [findConfig, hne, if_false]
      exact ih hnd.2 j h

theorem name_ne_of_get?_ne (l : List ServiceConfig)
    (hnd : (l.map ServiceConfig.Name).Nodup) (i j : Nat) (a b : ServiceConfig)
    (hi : l.get? i = some a) (hj : l.get? j = some b) (hij : j ≠ i) :
    b.Name ≠ a.Name := by
  induction l generalizing i j with
  | nil => simp at hi
  | cons s rest ih =>
    simp only [List.map_cons, List.nodup_cons] at hnd
    cases i with
    | zero =>
      cases j with
      | zero => exact absurd rfl hij
      | succ j' =>
        simp only [List.get?_cons_zero, Option.some.injEq] at hi
        simp only [List.get?_cons_succ] at hj
        subst hi
        intro e
        exact hnd.1 (e ▸ List.mem_map_of_mem _ (List.get?_mem hj))
    | succ i' =>
      cases j with
      | zero =>
        simp only [List.get?_cons_zero, Option.some.injEq] at hj
        simp only [List.get?_cons_succ] at hi
        subst hj
        intro e
        exact hnd.1 (e.symm ▸ List.mem_map_of_mem _ (List.get?_mem hi))
      | succ j' =>
        simp only [List.get?_cons_succ] at hi hj
        exact ih hnd.2 i' j' hi hj (fun e => hij (by rw [e]))

/-- Tasks for other names leave the record of `name` as it is. -/
theorem cycle_lookup_of_not_mem (cfg : Config) (envs : Nat → Env) (name : String)
    (sched : List Nat)
    (hne : ∀ j ∈ sched, ∀ svc', cfg.Services.get? j = some svc' → svc'.Name ≠ name)
    (s : DocService) :
    mapLookup (sched.foldl
      (fun s i =>
        match cfg.Services.get? i with
        | none => s
        | some svc => (RefreshService s svc.Name (envs i)).1) s).docs name =
      mapLookup s.docs name := by
  induction sched generalizing s with
  | nil => rfl
  | cons j rest ih =>
    simp only [List.foldl_cons]
    rw [ih (fun k hk => hne k (List.mem_cons_of_mem _ hk))]
    cases hj : cfg.Services.get? j with
    | none => rfl
    | some svc' =>
      exact RefreshService_lookup_ne s svc'.Name name (envs j)
        (fun e => hne j (List.mem_cons_self _ _) svc' hj e.symm)

/-- The record of the `i`-th service after the tasks of `sched`, among which task `i` occurs
once, is the record written by task `i`. -/
theorem cycle_lookup_of_mem (cfg : Config) (envs : Nat → Env) (i : Nat)
    (svc : ServiceConfig)
    (hfind : findConfig cfg.Services svc.Name = some svc)
    (hother : ∀ j, j ≠ i → ∀ svc', cfg.Services.get? j = some svc' → svc'.Name ≠ svc.Name)
    (hi : cfg.Services.get? i = some svc)
    (sched : List Nat) (hnd : sched.Nodup) (hmem : i ∈ sched)
    (s : DocService) (hs : s.config = cfg) (doc : ServiceDoc)
    (hdoc : mapLookup s.docs svc.Name = some doc) :
    mapLookup (sched.foldl
      (fun s i =>
        match cfg.Services.get? i with
        | none => s
        | some svc => (RefreshService s svc.Name (envs i)).1) s).docs svc.Name =
      some (refreshedDoc doc svc (envs i)) := by
  induction sched generalizing s with
  | nil => simp at hmem
  | cons j rest ih =>
    simp only [List.nodup_cons] at hnd
    simp only [List.foldl_cons]
    by_cases hji : j = i
    · subst hji
      rw [cycle_lookup_of_not_mem cfg envs svc.Name rest
        (fun k hk svc' hk' => hother k (fun e => hnd.1 (e ▸ hk)) svc' hk')]
      simp only [hi]
      rw [RefreshService_eq s svc.Name (envs j) doc svc hdoc (by rw [hs]; exact hfind)]
      exact mapLookup_mapWrite_self _ _ _ doc hdoc
    · have hmem' : i ∈ rest := by
        rcases List.mem_cons.mp hmem with h | h
        · exact absurd h.symm hji
        · exact h
      cases hj : cfg.Services.get? j with
      | none => exact ih hnd.2 hmem' s hs hdoc
      | some svc' =>
        refine ih hnd.2 hmem' _ ?_ ?_
        · rw [RefreshService_config, hs]
        · rw [RefreshService_lookup_ne s svc'.Name svc.Name (envs j)
            (fun e => hother j hji svc' hj e.symm)]
          exact hdoc

theorem RefreshAll_lookup (ds : DocService) (envs : Nat → Env) (sched : List Nat) (i : Nat)
    (svc : ServiceConfig) (doc : ServiceDoc)
    (hnames : (registryNames ds.config).Nodup)
    (hi : ds.config.Services.get? i = some svc)
    (hdoc : mapLookup ds.docs svc.Name = some doc) :
    mapLookup (RefreshAll ds envs sched).1.docs svc.Name =
      some (refreshedDoc doc svc (envs i)) := by
  have hlt : i < ds.config.Services.length := by
    rcases Nat.lt_or_ge i ds.config.Services.length with h | h
    · exact h
    · rw [List.get?_eq_none.mpr h] at hi
      cases hi
  exact cycle_lookup_of_mem ds.config envs i svc
    (findConfig_of_get? _ hnames i svc hi)
    (fun j hji svc' hj => name_ne_of_get?_ne _ hnames i j svc svc' hi hj hji)
    hi (writeOrder ds.config.Services.length sched) (nodup_writeOrder _ sched)
    ((mem_writeOrder _ sched i).mpr hlt) ds rfl doc hdoc

/-- C7, counterexample, in two parts.  First, a cycle over the cache that holds the document
of `orders`, in which the document endpoint of `orders` answers 200 with the body `null`
and `users` is unreachable: the fetch of `orders` returns no error, the cycle writes its
time, and the document of `orders` is not replaced by the fetched payload, the one cached
before stays.  Second, a registry in which two services carry the name `orders`, tasks
writing in configuration order on the freshly built cache: the second service observes the
same in both cycles, an unreachable backend at time 3, and its record holds a document when
the fetch of the first service succeeded and none when it failed; the first service, found
healthy at time 2, has a record that says unhealthy at time 3. -/
theorem RefreshAll_outcome_not_own :
    (fetchSwaggerDoc (cycleNull 0) (ordersConfig.BaseURL ++ ordersConfig.DocPath) =
        (none, none) ∧
      (mapLookup (RefreshAll ordersCached cycleNull [1, 0]).1.docs "orders").map
          ServiceDoc.LastUpdated = some 2 ∧
      (mapLookup (RefreshAll ordersCached cycleNull [1, 0]).1.docs "orders").map
          ServiceDoc.SwaggerDoc = some (some openapiDoc)) ∧
    (repeatedConfig.Services.get? 0 = some ordersConfig ∧
      repeatedConfig.Services.get? 1 = some ordersMirror ∧
      ordersMirror.Name = ordersConfig.Name ∧
      cycleFirstUp 1 = cycleFirstDown 1 ∧
      (fetchSwaggerDoc (cycleFirstUp 0) (ordersConfig.BaseURL ++ ordersConfig.DocPath)).2 =
        none ∧
      (fetchSwaggerDoc (cycleFirstDown 0) (ordersConfig.BaseURL ++ ordersConfig.DocPath)).2 =
        some (.external "connection refused") ∧
      (mapLookup (RefreshAll (buildDocs repeatedConfig) cycleFirstUp [0, 1]).1.docs
          "orders").map ServiceDoc.SwaggerDoc = some (some openapiDoc) ∧
      (mapLookup (RefreshAll (buildDocs repeatedConfig) cycleFirstDown [0, 1]).1.docs
          "orders").map ServiceDoc.SwaggerDoc = some none ∧
      (checkHealth (cycleFirstUp 0) (ordersConfig.BaseURL ++ ordersConfig.HealthCheck),
          (cycleFirstUp 0).now) = (true, 2) ∧
      (mapLookup (RefreshAll (buildDocs repeatedConfig) cycleFirstUp [0, 1]).1.docs
          "orders").map (fun d => (d.Healthy, d.LastUpdated)) = some (false, 3)) :=
  ⟨⟨rfl, rfl, rfl⟩, rfl, rfl, rfl, rfl, rfl, rfl, rfl, rfl, rfl, rfl⟩

/-- C7, amended: in a service whose configured names are pairwise distinct, when
`RefreshAll` returns, which it does after every task has run, in whatever order the tasks
wrote, the record of every configured service that has a cache record holds the outcome of
its own task: `Healthy` is the health-check outcome and `LastUpdated` the time observed by
that task, the document is the fetched one if that task's fetch returned no error and a
document that is not nil, and the one cached before the cycle otherwise, and the identity
fields are unchanged.  The record is the same for every other assignment of outcomes to the
other services and for every other order of the writes. -/
theorem RefreshAll_outcomes (ds : DocService) (envs : Nat → Env) (sched : List Nat) (i : Nat)
    (svc : ServiceConfig) (doc : ServiceDoc)
    (hnames : (registryNames ds.config).Nodup)
    (hi : ds.config.Services.get? i = some svc)
    (hdoc : mapLookup ds.docs svc.Name = some doc) :
    (∃ doc', mapLookup (RefreshAll ds envs sched).1.docs svc.Name = some doc' ∧
      doc'.Healthy = checkHealth (envs i) (svc.BaseURL ++ svc.HealthCheck) ∧
      doc'.LastUpdated = (envs i).now ∧
      (∀ d, fetchSwaggerDoc (envs i) (svc.BaseURL ++ svc.DocPath) = (some d, none) →
        doc'.SwaggerDoc = some d) ∧
      (((fetchSwaggerDoc (envs i) (svc.BaseURL ++ svc.DocPath)).2 ≠ none ∨
          (fetchSwaggerDoc (envs i) (svc.BaseURL ++ svc.DocPath)).1 = none) →
        doc'.SwaggerDoc = doc.SwaggerDoc) ∧
      sameIdentity doc doc') ∧
    (∀ (envs' : Nat → Env) (sched' : List Nat), envs' i = envs i →
      mapLookup (RefreshAll ds envs' sched').1.docs svc.Name =
        mapLookup (RefreshAll ds envs sched).1.docs svc.Name) := by
  have hmain := RefreshAll_lookup ds envs sched i svc doc hnames hi hdoc
  refine ⟨⟨refreshedDoc doc svc (envs i), hmain, ?_, ?_, ?_, ?_,
    refreshedDoc_sameIdentity doc svc (envs i)⟩, ?_⟩
  · unfold refreshedDoc
    split <;> rfl
  · unfold refreshedDoc
    split <;> rfl
  · intro d hd
    simp [refreshedDoc, hd]
  · intro hfail
    have hc : ((fetchSwaggerDoc (envs i) (svc.BaseURL ++ svc.DocPath)).2.isNone
        && (fetchSwaggerDoc (envs i) (svc.BaseURL ++ svc.DocPath)).1.isSome) = false := by
      rcases hfail with h | h
      · cases h2 : (fetchSwaggerDoc (envs i) (svc.BaseURL ++ svc.DocPath)).2 with
        | none => exact absurd h2 h
        | some e => simp
      · simp [h]
    simp [refreshedDoc, hc]
  · intro envs' sched' henv
    rw [hmain, RefreshAll_lookup ds envs' sched' i svc doc hnames hi hdoc, henv]

/-- Witness for C7: the cache holds the document of `orders`; in the cycle the document
endpoint of `orders` answers 500 at time 3 and `users` answers with a document while
unhealthy, and `users` writes first.  The record of `orders` is healthy at time 3 with the
document cached before, and it is the same when `users` is unreachable and writes last. -/
theorem RefreshAll_outcomes_witness :
    (registryNames ordersCached.config).Nodup ∧
      mapLookup (RefreshAll ordersCached (fun j => if j = 0 then envDoc500 3 else envDown 3)
          [0, 1]).1.docs "orders" =
        mapLookup (RefreshAll ordersCached cycleMixed [1, 0]).1.docs "orders" ∧
      (mapLookup (RefreshAll ordersCached cycleMixed [1, 0]).1.docs "orders").map
          (fun d => (d.Healthy, d.LastUpdated, d.SwaggerDoc)) =
        some (true, 3, some openapiDoc) :=
  ⟨by decide,
    (RefreshAll_outcomes ordersCached cycleMixed [1, 0] 0 ordersConfig
      { newServiceDoc ordersConfig with
        Healthy := true, LastUpdated := 1, SwaggerDoc := some openapiDoc }
      (by decide) rfl rfl).2
      (fun j => if j = 0 then envDoc500 3 else envDown 3) [0, 1] rfl, rfl⟩

/-! ## C10: a read racing a refresh -/

theorem mapWrite_mapWrite (m : List (String × ServiceDoc)) (name : String)
    (a b : ServiceDoc) : mapWrite (mapWrite m name a) name b = mapWrite m name b := by
  induction m with
  | nil => rfl
  | cons e rest ih =>
    obtain ⟨k, v⟩ := e
    by_cases hk : k = name
    · simp [mapWrite, hk]
    · simp [mapWrite, hk, ih]

theorem assignRecord_eq (m : List (String × ServiceDoc)) (name : String) (d : ServiceDoc)
    (f : ServiceDoc → ServiceDoc) (h : mapLookup m name = some d) :
    assignRecord m name f = mapWrite m name (f d) := by
  simp only [assignRecord, h]

/-- The refresh thread running alone goes through its program points and ends with the
service and the error of `RefreshService`. -/
theorem refreshService_thread_alone (ds : DocService) (name : String) (env : Env) :
    ∃ n w, runSchedule name env (List.replicate n .refreshService) (World.start ds) = some w ∧
      w.refreshPc = .done ∧ w.mu = { writer := false, readers := 0 } ∧
      w.ds = (RefreshService ds name env).1 ∧
      w.returned = some (RefreshService ds name env).2 := by
  cases hdoc : mapLookup ds.docs name with
  | none =>
    refine ⟨3, ?_⟩
    simp [List.replicate, runSchedule, stepThread, stepRefreshService, World.start, hdoc,
      RefreshService]
  | some doc =>
    cases hsvc : findConfig ds.config.Services name with
    | none =>
      refine ⟨4, ?_⟩
      simp [List.replicate, runSchedule, stepThread, stepRefreshService, World.start, hdoc,
        hsvc, RefreshService]
    | some svc =>
      have h1 : ∀ f, assignRecord ds.docs name f = mapWrite ds.docs name (f doc) :=
        fun f => assignRecord_eq ds.docs name doc f hdoc
      have h2 : ∀ (a : ServiceDoc) f,
          assignRecord (mapWrite ds.docs name a) name f = mapWrite ds.docs name (f a) := by
        intro a f
        rw [assignRecord_eq _ name a f (mapLookup_mapWrite_self ds.docs name a doc hdoc),
          mapWrite_mapWrite]
      refine ⟨9, ?_⟩
      by_cases hc : (fetchSwaggerDoc env (svc.BaseURL ++ svc.DocPath)).2 = none ∧
          (fetchSwaggerDoc env (svc.BaseURL ++ svc.DocPath)).1.isSome = true
      · simp [List.replicate, runSchedule, stepThread, stepRefreshService, World.start, hdoc,
          hsvc, RefreshService, hc, h1, h2]
      · simp [List.replicate, runSchedule, stepThread, stepRefreshService, World.start, hdoc,
          hsvc, RefreshService, hc, h1, h2]

/-- C10, the code against the claim: `orders` holds the outcome of a first attempt (healthy,
time 1, document `openapiDoc`); a second attempt, which observes a failed health check and
the document `swaggerDoc2` at time 2, runs while the handler `GetServiceInfo` serves
`orders`.  Under `racingSchedule` every step is enabled, both threads finish, the refresh
returns no error and leaves the record of the second attempt, and the handler has read
`Healthy` of the first attempt together with `LastUpdated` and `SwaggerDoc` of the second. -/
theorem GetServiceInfo_reads_mixed_record :
    ∃ w, runSchedule "orders" (envUnhealthy 2) racingSchedule (World.start ordersCached) =
        some w ∧
      w.refreshPc = .done ∧ w.readPc = .done ∧ w.returned = some none ∧
      w.ds.docs = (RefreshService ordersCached "orders" (envUnhealthy 2)).1.docs ∧
      (mapLookup ordersCached.docs "orders").map
          (fun d => (d.Healthy, d.LastUpdated, d.SwaggerDoc)) =
        some (true, 1, some openapiDoc) ∧
      (mapLookup w.ds.docs "orders").map
          (fun d => (d.Healthy, d.LastUpdated, d.SwaggerDoc)) =
        some (false, 2, some swaggerDoc2) ∧
      (w.seenHealthy, w.seenLastUpdated, w.seenSwaggerDoc) =
        (some true, some 2, some (some swaggerDoc2)) :=
  ⟨_, rfl, rfl, rfl, rfl, rfl, rfl, rfl, rfl⟩

end DocsHub
